import Mathlib

/-!
# Verification of the git-super OAuth/SSO authentication subsystem

Shallow embedding, in Lean 4, of the authentication core of the
`git-super` repository:

* `lib/auth/credential-store.mjs` — `CredentialStore` (keychain backend
  plus encrypted-file fallback),
* `lib/auth/token-manager.mjs` — `TokenManager` (token cache, validity,
  refresh, revocation),
* `lib/auth/oauth-flows.mjs` — `DeviceCodeFlow.pollForToken`,
* `lib/auth/auth-strategy.mjs` — `OAuthAuthStrategy.getAuthHeaders`.

Modelling conventions:

* JavaScript objects holding credentials are modelled as association
  lists keyed by service name; object read / assign / delete become
  `mapGet` / `mapSet` / `mapDel`.
* JavaScript string truthiness (`if (s)`) is modelled by `truthy` on
  `Option String` (`undefined`/`null` ↦ `none`, the empty string is
  falsy); `a || b` on strings becomes `jsOr`.
* Timestamps are integers (milliseconds since the epoch); the ISO-8601
  round trip through `new Date(...).getTime()` is modelled as the
  identity on these integers.
* The AES-256-CBC encryption of the credentials file, together with the
  JSON envelope around it, is kept abstract: a pair of functions
  `enc : CredMap → Blob` and `dec : Blob → Option CredMap`, where `dec`
  returning `none` models any exception while reading, parsing or
  decrypting the file.  Theorems that need the cipher to be invertible
  take the hypothesis `∀ m, dec (enc m) = some m` explicitly.
* Network calls (`fetch`) are modelled by oracle values describing the
  outcome of each request (exception thrown, non-2xx response, parsed
  JSON body), passed as explicit arguments.
-/

namespace GitSuper

/-- JavaScript truthiness of an optional string: `undefined`/`null` and
the empty string are falsy, every other string is truthy. -/
def truthy : Option String → Bool
  | none => false
  | some s => s != ""

/-- JavaScript `a || b` for an optional string `a` and a string default
`b`: returns `b` when `a` is absent or empty. -/
def jsOr (a : Option String) (b : String) : String :=
  match a with
  | none => b
  | some s => if s = "" then b else s

/-- `leadsWith s p` holds when the character list `p` is an initial
segment of `s` (helper for the JavaScript `String.prototype.includes`). -/
def leadsWith : List Char → List Char → Bool
  | _, [] => true
  | [], _ :: _ => false
  | c :: cs, p :: ps => (c == p) && leadsWith cs ps

/-- `hasSub s p`: the character list `p` occurs contiguously in `s`. -/
def hasSub : List Char → List Char → Bool
  | [], p => p.isEmpty
  | c :: cs, p => leadsWith (c :: cs) p || hasSub cs p

/-- JavaScript `s.includes(pat)`. -/
def strIncludes (s pat : String) : Bool :=
  hasSub s.data pat.data

/-- The `TokenRecord` persisted per provider (the object built by
`TokenManager.storeTokens` and stored by `CredentialStore`).  Optional
fields model JavaScript `undefined`; timestamps are epoch milliseconds. -/
structure TokenRecord where
  accessToken : Option String
  refreshToken : Option String
  tokenType : String
  scope : String
  issuedAt : Int
  expiresAt : Option Int
  deriving DecidableEq, Repr

/-- The decrypted content of the credentials file (and the keychain
contents): a JavaScript object mapping each service name to its
`TokenRecord`, modelled as an association list. -/
abbrev CredMap : Type := List (String × TokenRecord)

/-- JavaScript property read `m[k]` on a credential object. -/
def mapGet : CredMap → String → Option TokenRecord
  | [], _ => none
  | (k', v) :: rest, k => if k' = k then some v else mapGet rest k

/-- JavaScript property assignment `m[k] = v` on a credential object:
overwrites in place, or appends when the key is new. -/
def mapSet : CredMap → String → TokenRecord → CredMap
  | [], k, v => [(k, v)]
  | (k', v') :: rest, k, v =>
    if k' = k then (k, v) :: rest else (k', v') :: mapSet rest k v

/-- JavaScript `delete m[k]` on a credential object. -/
def mapDel (m : CredMap) (k : String) : CredMap :=
  m.filter (fun p => p.1 != k)

section CredentialStoreModel

variable {Blob : Type}

/-- Persistent state owned by a `CredentialStore`: whether the optional
`keytar` keychain backend is available (`_checkKeytar`, probed once at
construction), the keychain contents, and the encrypted credentials file
(`none` when `~/.gitsuper/credentials.enc` does not exist).  Keychain
entries hold JSON-serialised `TokenRecord`s under account `"default"`;
the JSON round trip is modelled as the identity, and keychain calls are
modelled as succeeding (their `catch` fallbacks are therefore not
taken). -/
structure StoreState (Blob : Type) where
  keytarAvailable : Bool
  keytar : CredMap
  file : Option Blob

/-- `CredentialStore._getFromFile(service)`: missing file gives `null`;
any exception while reading/parsing/decrypting (`dec` returning `none`)
is caught, logged and gives `null`; otherwise `allData[service] || null`. -/
def getFromFile (dec : Blob → Option CredMap) (file : Option Blob)
    (service : String) : Option TokenRecord :=
  match file with
  | none => none
  | some b =>
    match dec b with
    | none => none
    | some allData => mapGet allData service

/-- `CredentialStore._setInFile(service, data)`: reads and decrypts the
existing file when present (an exception there is caught and leaves the
fresh empty object `{}`), assigns `allData[service] = data`, re-encrypts
the whole map and rewrites the file. -/
def setInFile (enc : CredMap → Blob) (dec : Blob → Option CredMap)
    (file : Option Blob) (service : String) (data : TokenRecord) : Option Blob :=
  let allData : CredMap :=
    match file with
    | none => []
    | some b =>
      match dec b with
      | none => []
      | some m => m
  some (enc (mapSet allData service data))

/-- `CredentialStore._deleteFromFile(service)`: no-op when the file is
missing; an exception while reading/decrypting is caught and leaves the
file unchanged; otherwise deletes the key and rewrites the file. -/
def deleteFromFile (enc : CredMap → Blob) (dec : Blob → Option CredMap)
    (file : Option Blob) (service : String) : Option Blob :=
  match file with
  | none => none
  | some b =>
    match dec b with
    | none => some b
    | some allData => some (enc (mapDel allData service))

/-- `CredentialStore.get(service)`: keychain first when available
(`keytar.getPassword` returning `null` for a missing entry is *not* a
fall-through to the file — only a thrown error is), else the encrypted
file. -/
def storeGet (dec : Blob → Option CredMap) (st : StoreState Blob)
    (service : String) : Option TokenRecord :=
  if st.keytarAvailable then
    mapGet st.keytar service
  else
    getFromFile dec st.file service

/-- `CredentialStore.set(service, data)`: writes to the keychain and
returns when available, else falls back to the encrypted file. -/
def storeSet (enc : CredMap → Blob) (dec : Blob → Option CredMap)
    (st : StoreState Blob) (service : String) (data : TokenRecord) :
    StoreState Blob :=
  if st.keytarAvailable then
    { st with keytar := mapSet st.keytar service data }
  else
    { st with file := setInFile enc dec st.file service data }

/-- `CredentialStore.delete(service)`: deletes from the keychain when
available, and *also* always deletes from the encrypted file. -/
def storeDelete (enc : CredMap → Blob) (dec : Blob → Option CredMap)
    (st : StoreState Blob) (service : String) : StoreState Blob :=
  let st₁ :=
    if st.keytarAvailable then { st with keytar := mapDel st.keytar service }
    else st
  { st₁ with file := deleteFromFile enc dec st₁.file service }

/-- `CredentialStore.getStorageMethod()`: the string the source returns
for each active backend. -/
def getStorageMethod (st : StoreState Blob) : String :=
  if st.keytarAvailable then "keytar" else "file"

end CredentialStoreModel

section TokenManagerModel

variable {Blob : Type}

/-- State owned by a `TokenManager` on top of its `CredentialStore`:
the in-process token cache (`this.tokenCache`). -/
structure TMState (Blob : Type) where
  store : StoreState Blob
  tokenCache : Option TokenRecord

/-- An OAuth token-endpoint success body as consumed by
`TokenManager.storeTokens` (after the provider adapter has renamed the
snake_case JSON fields).  `expiresIn` is in seconds. -/
structure TokenResponse where
  accessToken : Option String
  refreshToken : Option String
  expiresIn : Option Int
  tokenType : Option String
  scope : Option String
  deriving DecidableEq, Repr

/-- Outcome of the single `fetch` issued by `TokenManager._doRefresh`:
a thrown network exception, a non-2xx response (`response.ok` false), or
a 2xx response whose `response.json()` either throws (`none`) or parses
to a token body. -/
inductive RefreshFetch where
  | netError (msg : String)
  | httpError (status : Nat) (statusText : String)
  | success (body : Option TokenResponse)
  deriving DecidableEq, Repr

/-- Fallback path of `TokenManager.getAccessToken()`: load from the
`CredentialStore`, populating the cache only when the stored record has
a truthy `accessToken`; else `null`. -/
def loadFromStore (dec : Blob → Option CredMap) (service : String)
    (st : TMState Blob) : Option String × TMState Blob :=
  match storeGet dec st.store service with
  | some stored =>
    if truthy stored.accessToken then
      (stored.accessToken, { st with tokenCache := some stored })
    else (none, st)
  | none => (none, st)

/-- `TokenManager.getAccessToken()`: cache hit when the cached record
has a truthy `accessToken`; otherwise `loadFromStore`.  No network
access on this path. -/
def getAccessToken (dec : Blob → Option CredMap) (service : String)
    (st : TMState Blob) : Option String × TMState Blob :=
  match st.tokenCache with
  | some c =>
    if truthy c.accessToken then (c.accessToken, st)
    else loadFromStore dec service st
  | none => loadFromStore dec service st

/-- `TokenManager.getRefreshToken()`: `stored?.refreshToken || null`. -/
def getRefreshTokenTM (dec : Blob → Option CredMap) (service : String)
    (st : TMState Blob) : Option String :=
  match storeGet dec st.store service with
  | some stored =>
    match stored.refreshToken with
    | some s => if s = "" then none else some s
    | none => none
  | none => none

/-- `TokenManager.hasValidToken()`: `false` without a truthy access
token; `true` when the stored record is missing or has no `expiresAt`;
otherwise `expiresAt > now`. -/
def hasValidToken (dec : Blob → Option CredMap) (service : String)
    (now : Int) (st : TMState Blob) : Bool × TMState Blob :=
  if truthy (getAccessToken dec service st).1 then
    match storeGet dec ((getAccessToken dec service st).2).store service with
    | none => (true, (getAccessToken dec service st).2)
    | some stored =>
      match stored.expiresAt with
      | none => (true, (getAccessToken dec service st).2)
      | some expiresAt => (decide (expiresAt > now), (getAccessToken dec service st).2)
  else (false, (getAccessToken dec service st).2)

/-- `TokenManager.needsRefresh()`: `false` when no record or no
`expiresAt`; otherwise `(expiresAt - now) < refreshThreshold`. -/
def needsRefresh (dec : Blob → Option CredMap) (service : String)
    (now refreshThreshold : Int) (st : TMState Blob) : Bool :=
  match storeGet dec st.store service with
  | none => false
  | some stored =>
    match stored.expiresAt with
    | none => false
    | some expiresAt => decide (expiresAt - now < refreshThreshold)

/-- `TokenManager.storeTokens(tokens)`: normalises the token response
into a `TokenRecord` (`tokenType || 'Bearer'`, `scope ||
scopes.join(' ')`, `issuedAt = now`, and `expiresAt = now + expiresIn *
1000` only when `expiresIn` is truthy — `0` is falsy in JavaScript),
persists it via `CredentialStore.set` and updates the cache. -/
def storeTokens (enc : CredMap → Blob) (dec : Blob → Option CredMap)
    (service : String) (scopes : List String) (now : Int)
    (tokens : TokenResponse) (st : TMState Blob) : TMState Blob :=
  let base : TokenRecord :=
    { accessToken := tokens.accessToken
      refreshToken := tokens.refreshToken
      tokenType := jsOr tokens.tokenType "Bearer"
      scope := jsOr tokens.scope (String.intercalate " " scopes)
      issuedAt := now
      expiresAt := none }
  let data : TokenRecord :=
    match tokens.expiresIn with
    | some n => if n = 0 then base else { base with expiresAt := some (now + n * 1000) }
    | none => base
  { store := storeSet enc dec st.store service data
    tokenCache := some data }

/-- `TokenManager._doRefresh()`: `false` without a refresh token; then a
single `fetch` of the refresh endpoint — a thrown exception is caught
(logged, `false`), a non-2xx response is logged and gives `false`, a
body that fails to parse throws and is caught (`false`); on success the
tokens are stored and the result is `true`. -/
def doRefresh (enc : CredMap → Blob) (dec : Blob → Option CredMap)
    (service : String) (scopes : List String) (now : Int)
    (f : RefreshFetch) (st : TMState Blob) : Bool × TMState Blob :=
  match getRefreshTokenTM dec service st with
  | none => (false, st)
  | some _ =>
    match f with
    | .netError _ => (false, st)
    | .httpError _ _ => (false, st)
    | .success none => (false, st)
    | .success (some tokens) =>
      (true, storeTokens enc dec service scopes now tokens st)

/-- Outcome of the best-effort revocation `fetch` issued by
`TokenManager.revokeToken` (its result is caught and only logged). -/
inductive RevokeFetch where
  | netError (msg : String)
  | replied (ok : Bool) (status : Nat)
  deriving DecidableEq, Repr

/-- `TokenManager.revokeToken(revokeEndpoint?)`: reads the current
access token; when an endpoint is given and a token exists, POSTs to the
revocation endpoint inside `try { ... } catch { warn }`, so the fetch
outcome `f` never influences the rest; then unconditionally deletes the
`CredentialStore` entry and clears the cache. -/
def revokeToken (enc : CredMap → Blob) (dec : Blob → Option CredMap)
    (service : String) (revokeEndpoint : Option String)
    (f : RevokeFetch) (st : TMState Blob) : TMState Blob :=
  { store := storeDelete enc dec ((getAccessToken dec service st).2).store service
    tokenCache := none }

end TokenManagerModel

section AuthStrategyModel

variable {Blob : Type}

/-- Result of `OAuthAuthStrategy.getAuthHeaders()`: either a header map
or a thrown `Error` with its message. -/
inductive HeadersResult where
  | ok (headers : List (String × String))
  | err (msg : String)
  deriving DecidableEq, Repr

/-- The message thrown by `OAuthAuthStrategy.ensureAuthenticated` when
the refresh fails (two concatenated string literals in the source). -/
def expiredRefreshMsg : String :=
  "OAuth token expired and could not be refreshed. Please re-authenticate with: git super auth login"

/-- The message thrown by `OAuthAuthStrategy.getAuthHeaders` when no
token string is available after validation. -/
def noTokenMsg : String :=
  "No valid OAuth token available. Please authenticate with: git super auth login"

/-- Tail of `OAuthAuthStrategy.getAuthHeaders()` after
`ensureAuthenticated` succeeded: fetch the access token, throw when it
is falsy, else return the `Authorization: Bearer` header. -/
def finishHeaders (dec : Blob → Option CredMap) (service : String)
    (st : TMState Blob) : HeadersResult × TMState Blob :=
  if truthy (getAccessToken dec service st).1 then
    (.ok [("Authorization", "Bearer " ++ jsOr (getAccessToken dec service st).1 "")],
      (getAccessToken dec service st).2)
  else
    (.err noTokenMsg, (getAccessToken dec service st).2)

/-- `OAuthAuthStrategy.getAuthHeaders()`: `ensureAuthenticated` first —
when `hasValidToken()` is false, attempt `refreshToken()` (which, with
no refresh already pending, runs `_doRefresh`; its fetch outcome is the
oracle `f`); a failed refresh throws the re-authentication error.
Afterwards the access token is fetched and the Bearer header built. -/
def getAuthHeaders (enc : CredMap → Blob) (dec : Blob → Option CredMap)
    (service : String) (scopes : List String) (now : Int)
    (f : RefreshFetch) (st : TMState Blob) : HeadersResult × TMState Blob :=
  if (hasValidToken dec service now st).1 then
    finishHeaders dec service (hasValidToken dec service now st).2
  else if (doRefresh enc dec service scopes now f (hasValidToken dec service now st).2).1 then
    finishHeaders dec service
      (doRefresh enc dec service scopes now f (hasValidToken dec service now st).2).2
  else
    (.err expiredRefreshMsg,
      (doRefresh enc dec service scopes now f (hasValidToken dec service now st).2).2)

end AuthStrategyModel

section DeviceCodePolling

/-- The parsed JSON body of one polling response from the token
endpoint (`data` in `DeviceCodeFlow.pollForToken`). -/
structure PollData where
  error : Option String
  errorDescription : Option String
  accessToken : Option String
  refreshToken : Option String
  expiresIn : Option Int
  tokenType : Option String
  scope : Option String
  deriving DecidableEq, Repr

/-- Outcome of one polling attempt's `fetch`+`response.json()`:
either a thrown exception with its message, or a parsed body. -/
inductive PollAttempt where
  | netThrow (msg : String)
  | reply (data : PollData)
  deriving DecidableEq, Repr

/-- Result of `pollForToken`: the returned token object, or the message
of the error it throws. -/
inductive PollResult where
  | success (tok : TokenResponse)
  | failure (msg : String)
  deriving DecidableEq, Repr

/-- The timeout error thrown when the attempt budget is exhausted. -/
def timeoutMsg : String := "Authorization timeout. Please try again."

/-- The error message built inside the loop for a terminal protocol
error `e` (checked after `authorization_pending` and `slow_down`). -/
def pollErrMsg (e : String) (desc : Option String) : String :=
  if e = "expired_token" then "Device code expired. Please try again."
  else if e = "access_denied" then "User denied authorization."
  else "Authorization error: " ++ e ++ " - " ++ jsOr desc ""

/-- The token object returned by `pollForToken` on success. -/
def pollToken (d : PollData) : TokenResponse :=
  { accessToken := d.accessToken
    refreshToken := d.refreshToken
    expiresIn := d.expiresIn
    tokenType := d.tokenType
    scope := d.scope }

/-- What one iteration of the polling loop does with its attempt:
continue to the next attempt, or leave the loop with a result. -/
inductive PollStep where
  | next
  | done (r : PollResult)
  deriving DecidableEq, Repr

/-- One iteration of the `pollForToken` loop body.  A truthy `data.error`
drives the state machine (`authorization_pending` and `slow_down`
continue, the rest throw; the thrown messages all contain `expired`,
`denied` or `Authorization error`, so the surrounding `catch` rethrows
them).  A caught exception is rethrown exactly when its message contains
one of those three substrings; otherwise it is logged and the loop
continues. -/
def pollStep (a : PollAttempt) : PollStep :=
  match a with
  | .netThrow msg =>
    if strIncludes msg "Authorization error" || strIncludes msg "expired"
        || strIncludes msg "denied" then
      .done (.failure msg)
    else
      .next
  | .reply d =>
    match d.error with
    | some e =>
      if e = "" then .done (.success (pollToken d))
      else if e = "authorization_pending" then .next
      else if e = "slow_down" then .next
      else .done (.failure (pollErrMsg e d.errorDescription))
    | none => .done (.success (pollToken d))

/-- The polling loop of `pollForToken`, from attempt index `i` with the
given remaining budget; the oracle `ρ` gives each attempt's outcome.
Returns the result together with the number of attempts consumed. -/
def pollAux (ρ : Nat → PollAttempt) : Nat → Nat → PollResult × Nat
  | _, 0 => (.failure timeoutMsg, 0)
  | i, fuel + 1 =>
    match pollStep (ρ i) with
    | .done r => (r, 1)
    | .next => ((pollAux ρ (i + 1) fuel).1, (pollAux ρ (i + 1) fuel).2 + 1)

/-- `DeviceCodeFlow.pollForToken`: at most `maxAttempts = 180` loop
iterations, then the timeout error.  Returns the result and the number
of polling attempts made. -/
def pollRun (ρ : Nat → PollAttempt) : PollResult × Nat :=
  pollAux ρ 0 180

end DeviceCodePolling

section SingleFlightRefresh

/-!
Concurrency model of `TokenManager.refreshToken()`.  JavaScript is
single-threaded: the synchronous prefix of `refreshToken` (reading
`this.refreshPromise`, possibly assigning it) runs atomically up to the
first `await`.  We model the per-instance refresh coordination as an
event machine:

* `Ev.call c` — caller `c` invokes `refreshToken()`.  If
  `this.refreshPromise` is set, the caller returns (awaits) that same
  pending promise; otherwise a fresh `_doRefresh()` operation starts
  (issuing its one HTTP refresh request) and its promise is stored in
  `refreshPromise`.
* `Ev.settle b` — the in-flight `_doRefresh` operation settles with
  outcome `b`; every caller awaiting its promise receives `b`, and the
  first caller's `finally` clears `refreshPromise`.

`started` counts `_doRefresh` operations begun, i.e. refresh HTTP
requests issued; `inFlight` lists the operations begun and not yet
settled.
-/

/-- Events observed by one `TokenManager` instance's refresh state. -/
inductive Ev where
  | call (caller : Nat)
  | settle (outcome : Bool)
  deriving DecidableEq, Repr

/-- Refresh-coordination state of a `TokenManager` instance:
`pending` is `this.refreshPromise` (identified by operation number),
`waiting` the callers awaiting each operation, `settled` the outcomes
already delivered to callers. -/
structure RTState where
  pending : Option Nat
  started : Nat
  inFlight : List Nat
  waiting : List (Nat × Nat)
  settled : List (Nat × Bool)
  deriving DecidableEq, Repr

/-- Initial refresh state of a fresh `TokenManager`
(`this.refreshPromise = null`). -/
def rtInit : RTState :=
  { pending := none, started := 0, inFlight := [], waiting := [], settled := [] }

/-- One event step of the refresh coordination (mirrors
`refreshToken`'s check of `this.refreshPromise` and its
`try`/`finally`). -/
def rtStep (s : RTState) : Ev → RTState
  | .call c =>
    match s.pending with
    | some op => { s with waiting := (c, op) :: s.waiting }
    | none =>
      let op := s.started
      { s with
          pending := some op
          started := s.started + 1
          inFlight := op :: s.inFlight
          waiting := (c, op) :: s.waiting }
  | .settle b =>
    match s.pending with
    | some op =>
      { s with
          pending := none
          inFlight := s.inFlight.erase op
          waiting := s.waiting.filter (fun p => p.2 != op)
          settled :=
            ((s.waiting.filter (fun p => p.2 == op)).map (fun p => (p.1, b)))
              ++ s.settled }
    | none => s

/-- Run the refresh event machine over a trace of events. -/
def rtRun (tr : List Ev) : RTState :=
  tr.foldl rtStep rtInit

/-- Machine invariant: the in-flight operations are exactly the pending
one, and every waiting caller awaits the pending operation. -/
def rtInv (s : RTState) : Prop :=
  (∀ op, s.pending = some op → s.inFlight = [op]) ∧
  (s.pending = none → s.inFlight = []) ∧
  (∀ c op op', s.pending = some op' → (c, op) ∈ s.waiting → op = op') ∧
  (s.pending = none → s.waiting = [])

end SingleFlightRefresh

/-- Identity "cipher" used to instantiate the abstract encryption layer
on concrete inputs: the blob type is the credential map itself. -/
def idEnc : CredMap → CredMap := fun m => m

/-- Inverse of `idEnc`: decryption always succeeds. -/
def idDec : CredMap → Option CredMap := fun m => some m

/-- Cipher over `Option CredMap` blobs: encryption wraps in `some`, and
the blob `none` stands for a corrupt (undecryptable) file. -/
def optEnc : CredMap → Option CredMap := fun m => some m

/-- Inverse of `optEnc`; fails exactly on the corrupt blob `none`. -/
def optDec : Option CredMap → Option CredMap := fun b => b

/-!
## Helper lemmas
-/

theorem idDec_idEnc : ∀ m, idDec (idEnc m) = some m := fun _ => rfl

theorem optDec_optEnc : ∀ m, optDec (optEnc m) = some m := fun _ => rfl

theorem mapGet_mapSet_self (m : CredMap) (k : String) (v : TokenRecord) :
    mapGet (mapSet m k v) k = some v := by
  induction m with
  | nil => simp [mapSet, mapGet]
  | cons hd tl ih =>
    obtain ⟨k', v'⟩ := hd
    by_cases h : k' = k
    · simp [mapSet, h, mapGet]
    · simp [mapSet, h, mapGet, ih]

theorem mapGet_mapSet_ne (m : CredMap) (k k' : String) (v : TokenRecord)
    (h : k' ≠ k) : mapGet (mapSet m k v) k' = mapGet m k' := by
  have h' : k ≠ k' := Ne.symm h
  induction m with
  | nil => simp [mapSet, mapGet, h']
  | cons hd tl ih =>
    obtain ⟨k₀, v₀⟩ := hd
    by_cases h0 : k₀ = k
    · subst h0
      simp [mapSet, mapGet, h']
    · simp only [mapSet, if_neg h0, mapGet]
      by_cases h1 : k₀ = k'
      · simp [h1]
      · simp [h1, ih]

theorem mapGet_mapDel_self (m : CredMap) (k : String) :
    mapGet (mapDel m k) k = none := by
  induction m with
  | nil => rfl
  | cons hd tl ih =>
    obtain ⟨k', v'⟩ := hd
    by_cases h : k' = k
    · simpa [mapDel, List.filter_cons, h] using ih
    · simpa [mapDel, List.filter_cons, h, mapGet] using ih

theorem pollAux_count_le (ρ : Nat → PollAttempt) (i fuel : Nat) :
    (pollAux ρ i fuel).2 ≤ fuel := by
  induction fuel generalizing i with
  | zero => simp [pollAux]
  | succ n ih =>
    simp only [pollAux]
    cases h : pollStep (ρ i) with
    | done r => simp
    | next => simpa using Nat.succ_le_succ (ih (i + 1))

theorem pollAux_timeout (ρ : Nat → PollAttempt) (i fuel : Nat)
    (h : ∀ j, j < fuel → pollStep (ρ (i + j)) = .next) :
    pollAux ρ i fuel = (.failure timeoutMsg, fuel) := by
  induction fuel generalizing i with
  | zero => rfl
  | succ n ih =>
    have h0 : pollStep (ρ i) = .next := by simpa using h 0 (Nat.succ_pos n)
    have hrest : ∀ j, j < n → pollStep (ρ (i + 1 + j)) = .next := by
      intro j hj
      have he : i + 1 + j = i + (j + 1) := by omega
      rw [he]
      exact h (j + 1) (by omega)
    simp [pollAux, h0, ih (i + 1) hrest]

theorem pollAux_done (ρ : Nat → PollAttempt) (i fuel k : Nat) (r : PollResult)
    (hprev : ∀ j, j < k → pollStep (ρ (i + j)) = .next)
    (hk : pollStep (ρ (i + k)) = .done r) (hlt : k < fuel) :
    pollAux ρ i fuel = (r, k + 1) := by
  induction k generalizing i fuel with
  | zero =>
    cases fuel with
    | zero => omega
    | succ n =>
      have hk0 : pollStep (ρ i) = .done r := by simpa using hk
      simp [pollAux, hk0]
  | succ m ih =>
    cases fuel with
    | zero => omega
    | succ n =>
      have h0 : pollStep (ρ i) = .next := by simpa using hprev 0 (Nat.succ_pos m)
      have hprev' : ∀ j, j < m → pollStep (ρ (i + 1 + j)) = .next := by
        intro j hj
        have he : i + 1 + j = i + (j + 1) := by omega
        rw [he]
        exact hprev (j + 1) (by omega)
      have hk' : pollStep (ρ (i + 1 + m)) = .done r := by
        have he : i + 1 + m = i + (m + 1) := by omega
        rw [he]
        exact hk
      simp [pollAux, h0, ih (i + 1) n hprev' hk' (by omega)]

theorem rtInv_init : rtInv rtInit := by
  refine ⟨?_, ?_, ?_, ?_⟩ <;> simp [rtInv, rtInit]

theorem rtInv_step (s : RTState) (e : Ev) (h : rtInv s) : rtInv (rtStep s e) := by
  obtain ⟨h1, h2, h3, h4⟩ := h
  cases e with
  | call c =>
    cases hp : s.pending with
    | some op =>
      have hs : rtStep s (.call c) = { s with waiting := (c, op) :: s.waiting } := by
        simp [rtStep, hp]
      rw [hs]
      refine ⟨?_, ?_, ?_, ?_⟩
      · intro op' hop'
        exact h1 op' hop'
      · intro hn
        exact h2 hn
      · intro c' o o' ho' hw
        rcases List.mem_cons.mp hw with hw | hw
        · rw [hp] at ho'
          injection ho' with he
          exact (congrArg Prod.snd hw).trans he
        · exact h3 c' o o' ho' hw
      · intro hn
        rw [hn] at hp
        cases hp
    | none =>
      have hs : rtStep s (.call c) =
          { s with pending := some s.started, started := s.started + 1,
                   inFlight := s.started :: s.inFlight,
                   waiting := (c, s.started) :: s.waiting } := by
        simp [rtStep, hp]
      rw [hs]
      refine ⟨?_, ?_, ?_, ?_⟩
      · intro op' hop'
        injection hop' with he
        rw [← he, h2 hp]
      · intro hn
        cases hn
      · intro c' o o' ho' hw
        injection ho' with he
        rcases List.mem_cons.mp hw with hw | hw
        · rw [← he]
          exact congrArg Prod.snd hw
        · rw [h4 hp] at hw
          cases hw
      · intro hn
        cases hn
  | settle b =>
    cases hp : s.pending with
    | some op =>
      have hs : rtStep s (.settle b) =
          { s with pending := none, inFlight := s.inFlight.erase op,
                   waiting := s.waiting.filter (fun p => p.2 != op),
                   settled :=
                     ((s.waiting.filter (fun p => p.2 == op)).map (fun p => (p.1, b)))
                       ++ s.settled } := by
        simp [rtStep, hp]
      rw [hs]
      refine ⟨?_, ?_, ?_, ?_⟩
      · intro op' hop'
        cases hop'
      · intro _
        rw [h1 op hp]
        simp
      · intro c' o o' ho'
        cases ho'
      · intro _
        apply List.filter_eq_nil_iff.mpr
        intro p hp'
        have hpo : p.2 = op := h3 p.1 p.2 op hp (by simpa using hp')
        simp [hpo]
    | none =>
      have hs : rtStep s (.settle b) = s := by
        simp [rtStep, hp]
      rw [hs]
      exact ⟨h1, h2, h3, h4⟩

theorem rtInv_foldl (tr : List Ev) (s : RTState) (h : rtInv s) :
    rtInv (tr.foldl rtStep s) := by
  induction tr generalizing s with
  | nil => exact h
  | cons e rest ih => exact ih _ (rtInv_step s e h)

theorem rtInv_run (tr : List Ev) : rtInv (rtRun tr) :=
  rtInv_foldl tr rtInit rtInv_init

theorem loadFromStore_store_eq {Blob : Type} (dec : Blob → Option CredMap)
    (service : String) (st : TMState Blob) :
    ((loadFromStore dec service st).2).store = st.store := by
  unfold loadFromStore
  cases h : storeGet dec st.store service with
  | none => rfl
  | some stored => by_cases ht : truthy stored.accessToken <;> simp [ht]

theorem getAccessToken_store_eq {Blob : Type} (dec : Blob → Option CredMap)
    (service : String) (st : TMState Blob) :
    ((getAccessToken dec service st).2).store = st.store := by
  unfold getAccessToken
  cases st.tokenCache with
  | none => exact loadFromStore_store_eq dec service st
  | some c =>
    by_cases ht : truthy c.accessToken
    · simp [ht]
    · simp [ht, loadFromStore_store_eq]

theorem getAccessToken_truthy {Blob : Type} (dec : Blob → Option CredMap)
    (service : String) (st : TMState Blob) (r : TokenRecord)
    (hr : storeGet dec st.store service = some r)
    (ht : truthy r.accessToken = true) :
    truthy (getAccessToken dec service st).1 = true := by
  unfold getAccessToken loadFromStore
  cases st.tokenCache with
  | none => simp [hr, ht]
  | some c =>
    by_cases hc : truthy c.accessToken
    · simp [hc]
    · simp [hc, hr, ht]

theorem storeGet_storeDelete {Blob : Type} (enc : CredMap → Blob)
    (dec : Blob → Option CredMap) (hdec : ∀ m, dec (enc m) = some m)
    (s : StoreState Blob) (service : String) :
    storeGet dec (storeDelete enc dec s service) service = none := by
  cases hk : s.keytarAvailable
  · simp only [storeDelete, hk, Bool.false_eq_true, if_false, storeGet]
    unfold getFromFile deleteFromFile
    cases hf : s.file with
    | none => simp
    | some b =>
      cases hd : dec b with
      | none => simp [hd]
      | some m => simp [hd, hdec, mapGet_mapDel_self]
  · simp [storeGet, storeDelete, hk, mapGet_mapDel_self]

/-!
## Claim theorems
-/

/-- **C1** — Single-flight refresh.  Over every event trace of one
`TokenManager` instance: (i) at most one `_doRefresh` operation — hence
at most one refresh HTTP request — is in flight at any time; (ii) a
`refreshToken()` call made while a refresh is pending only attaches the
caller to the *same* pending operation and changes nothing else (in
particular `started`, the number of refresh HTTP requests issued, is
unchanged); (iii) after the pending operation settles the
pending-operation handle `refreshPromise` is cleared; and (iv) every
caller awaiting the pending operation receives that operation's single
outcome. -/
theorem C1_single_flight_refresh (tr : List Ev) :
    (rtRun tr).inFlight.length ≤ 1
    ∧ (∀ c op, (rtRun tr).pending = some op →
        rtStep (rtRun tr) (.call c)
          = { rtRun tr with waiting := (c, op) :: (rtRun tr).waiting })
    ∧ (∀ b, (rtStep (rtRun tr) (.settle b)).pending = none)
    ∧ (∀ b c op, (rtRun tr).pending = some op → (c, op) ∈ (rtRun tr).waiting →
        (c, b) ∈ (rtStep (rtRun tr) (.settle b)).settled) := by
  obtain ⟨h1, h2, h3, h4⟩ := rtInv_run tr
  refine ⟨?_, ?_, ?_, ?_⟩
  · cases hp : (rtRun tr).pending with
    | none => rw [h2 hp]; simp
    | some op => rw [h1 op hp]; simp
  · intro c op hp
    simp [rtStep, hp]
  · intro b
    cases hp : (rtRun tr).pending with
    | none => simp [rtStep, hp]
    | some op => simp [rtStep, hp]
  · intro b c op hp hw
    have hs : rtStep (rtRun tr) (.settle b) =
        { rtRun tr with
            pending := none,
            inFlight := (rtRun tr).inFlight.erase op,
            waiting := (rtRun tr).waiting.filter (fun p => p.2 != op),
            settled :=
              (((rtRun tr).waiting.filter (fun p => p.2 == op)).map (fun p => (p.1, b)))
                ++ (rtRun tr).settled } := by
      simp [rtStep, hp]
    rw [hs]
    apply List.mem_append_left
    apply List.mem_map.mpr
    exact ⟨(c, op), List.mem_filter.mpr ⟨hw, by simp⟩, rfl⟩

/-- Witness for C1: two overlapping `refreshToken()` calls.  Caller 0
starts the refresh, caller 1 calls while it is pending; settling the one
operation with `true` delivers `true` to both callers, one refresh HTTP
request was issued in total, and the handle is cleared. -/
theorem C1_single_flight_refresh_witness :
    (rtStep (rtRun [Ev.call 0, Ev.call 1]) (.settle true)).pending = none
    ∧ (0, true) ∈ (rtStep (rtRun [Ev.call 0, Ev.call 1]) (.settle true)).settled
    ∧ (1, true) ∈ (rtStep (rtRun [Ev.call 0, Ev.call 1]) (.settle true)).settled
    ∧ (rtRun [Ev.call 0, Ev.call 1]).started = 1 :=
  ⟨(C1_single_flight_refresh [Ev.call 0, Ev.call 1]).2.2.1 true,
   (C1_single_flight_refresh [Ev.call 0, Ev.call 1]).2.2.2 true 0 0 (by decide) (by decide),
   (C1_single_flight_refresh [Ev.call 0, Ev.call 1]).2.2.2 true 1 0 (by decide) (by decide),
   by decide⟩

/-- **C2** — `refreshToken()` resolves to `false` and never throws (the
embedding is a total function into `Bool × TMState`, and with no refresh
pending `refreshToken` returns `_doRefresh`'s outcome) when: no refresh
token is stored, the endpoint answers non-2xx, or the fetch throws. -/
theorem C2_refresh_resolves_false {Blob : Type}
    (enc : CredMap → Blob) (dec : Blob → Option CredMap)
    (service : String) (scopes : List String) (now : Int) (st : TMState Blob) :
    (∀ f, getRefreshTokenTM dec service st = none →
        doRefresh enc dec service scopes now f st = (false, st))
    ∧ (∀ status text,
        (doRefresh enc dec service scopes now (.httpError status text) st).1 = false)
    ∧ (∀ msg, (doRefresh enc dec service scopes now (.netError msg) st).1 = false) := by
  refine ⟨?_, ?_, ?_⟩
  · intro f h
    simp [doRefresh, h]
  · intro status text
    cases h : getRefreshTokenTM dec service st <;> simp [doRefresh, h]
  · intro msg
    cases h : getRefreshTokenTM dec service st <;> simp [doRefresh, h]

/-- Witness for C2: a fresh file-mode store with no credentials file has
no refresh token, so a refresh resolves to `false`. -/
theorem C2_refresh_resolves_false_witness :
    doRefresh idEnc idDec "git-super-github-copilot" [] 0 (.netError "ECONNRESET")
        ⟨⟨false, [], none⟩, none⟩ = (false, ⟨⟨false, [], none⟩, none⟩) :=
  (C2_refresh_resolves_false idEnc idDec "git-super-github-copilot" [] 0
      ⟨⟨false, [], none⟩, none⟩).1 (.netError "ECONNRESET") rfl

/-- **C3, counterexample** — the claim says transient network failures
during an attempt are swallowed and retried, and that only
protocol-level terminal errors abort before the budget is exhausted.
But the `catch` block rethrows any exception whose *message* contains
`"denied"` (or `"expired"`, `"Authorization error"`): a network failure
whose message is `"connection denied"` aborts the whole poll on the
first attempt — 1 of the 180-attempt budget used — with that very
network error raised. -/
theorem C3_poll_network_failure_counterexample :
    pollRun (fun _ => .netThrow "connection denied")
      = (.failure "connection denied", 1)
    ∧ (1 : Nat) < 180 := by
  exact ⟨rfl, by omega⟩

/-- **C3, amended** — `pollForToken` terminates for every sequence of
provider responses: (i) it makes at most 180 polling attempts; (ii) if
no attempt reaches a terminal state it fails with the timeout error
after exactly 180 attempts; (iii) a network failure during an attempt
whose message does not contain `"Authorization error"`, `"expired"` or
`"denied"` is swallowed and the loop retries (consuming an attempt from
the same budget); (iv) a network failure whose message does contain one
of those substrings is rethrown and aborts the poll like a terminal
error. -/
theorem C3_poll_termination_amended (ρ : Nat → PollAttempt) :
    (pollRun ρ).2 ≤ 180
    ∧ ((∀ j, j < 180 → pollStep (ρ j) = .next) →
        pollRun ρ = (.failure timeoutMsg, 180))
    ∧ (∀ msg, strIncludes msg "Authorization error" = false →
        strIncludes msg "expired" = false → strIncludes msg "denied" = false →
        pollStep (.netThrow msg) = .next)
    ∧ (∀ msg, (strIncludes msg "Authorization error" || strIncludes msg "expired"
          || strIncludes msg "denied") = true →
        pollStep (.netThrow msg) = .done (.failure msg)) := by
  refine ⟨pollAux_count_le ρ 0 180, ?_, ?_, ?_⟩
  · intro h
    exact pollAux_timeout ρ 0 180 (fun j hj => by simpa using h j hj)
  · intro msg h1 h2 h3
    simp [pollStep, h1, h2, h3]
  · intro msg h
    simp [pollStep, h]

/-- Witness for C3 (amended): an endpoint that always answers
`authorization_pending` times out after exactly 180 attempts, and a
plain `ECONNRESET` network failure is swallowed, not raised. -/
theorem C3_poll_termination_amended_witness :
    pollRun (fun _ => .reply ⟨some "authorization_pending", none, none, none, none, none, none⟩)
      = (.failure timeoutMsg, 180)
    ∧ pollStep (.netThrow "ECONNRESET") = .next :=
  ⟨(C3_poll_termination_amended
      (fun _ => .reply ⟨some "authorization_pending", none, none, none, none, none, none⟩)).2.1
      (fun j _ => by decide),
   (C3_poll_termination_amended (fun _ => .netThrow "ECONNRESET")).2.2.1
      "ECONNRESET" (by decide) (by decide) (by decide)⟩

/-- **C4** — in any polling run whose first `i` attempts all continue
the loop: a response body with `error = "access_denied"` at attempt `i`
makes the poll fail right there — `i + 1` attempts total, no further
polling — with the message `"User denied authorization."`; likewise
`error = "expired_token"` fails terminally with the device-code-expired
message; while a body with `error = "authorization_pending"` continues
polling.  The denial message contains `"denied"`, identifying the
cause. -/
theorem C4_access_denied_terminal (ρ : Nat → PollAttempt) (i : Nat) :
    (∀ d : PollData, d.error = some "access_denied" →
      (∀ j, j < i → pollStep (ρ j) = .next) → ρ i = .reply d → i < 180 →
      pollRun ρ = (.failure "User denied authorization.", i + 1))
    ∧ (∀ d : PollData, d.error = some "expired_token" →
      (∀ j, j < i → pollStep (ρ j) = .next) → ρ i = .reply d → i < 180 →
      pollRun ρ = (.failure "Device code expired. Please try again.", i + 1))
    ∧ (∀ d : PollData, d.error = some "authorization_pending" →
      pollStep (.reply d) = .next)
    ∧ strIncludes "User denied authorization." "denied" = true := by
  refine ⟨?_, ?_, ?_, by decide⟩
  · intro d hd hprev hi hlt
    have hstep : pollStep (ρ i) = .done (.failure "User denied authorization.") := by
      rw [hi]
      simp [pollStep, hd, pollErrMsg]
    exact pollAux_done ρ 0 180 i _ (fun j hj => by simpa using hprev j hj)
      (by simpa using hstep) hlt
  · intro d hd hprev hi hlt
    have hstep : pollStep (ρ i) = .done (.failure "Device code expired. Please try again.") := by
      rw [hi]
      simp [pollStep, hd, pollErrMsg]
    exact pollAux_done ρ 0 180 i _ (fun j hj => by simpa using hprev j hj)
      (by simpa using hstep) hlt
  · intro d hd
    simp [pollStep, hd]

/-- Witness for C4: three `authorization_pending` responses followed by
`access_denied` fail after exactly 4 attempts with the denial message. -/
theorem C4_access_denied_terminal_witness :
    pollRun (fun j => if j < 3
        then .reply ⟨some "authorization_pending", none, none, none, none, none, none⟩
        else .reply ⟨some "access_denied", none, none, none, none, none, none⟩)
      = (.failure "User denied authorization.", 4) :=
  (C4_access_denied_terminal
      (fun j => if j < 3
        then .reply ⟨some "authorization_pending", none, none, none, none, none, none⟩
        else .reply ⟨some "access_denied", none, none, none, none, none, none⟩) 3).1
    ⟨some "access_denied", none, none, none, none, none, none⟩ rfl
    (fun j hj => by interval_cases j <;> decide) (by decide) (by omega)

/-- **C5** — for every stored `TokenRecord`: with `expiresAt` in the
past, `hasValidToken()` is false; with `expiresAt` absent (and a truthy
stored access token, per the "false if no token" clause of the same
contract), `hasValidToken()` is true; with `expiresAt` more than the
refresh threshold in the future, `needsRefresh()` is false; and with no
stored token (nothing cached, nothing stored), `hasValidToken()` is
false. -/
theorem C5_validity_and_threshold {Blob : Type} (dec : Blob → Option CredMap)
    (service : String) (now threshold : Int) (st : TMState Blob) :
    (∀ r e, storeGet dec st.store service = some r → r.expiresAt = some e →
        e < now → (hasValidToken dec service now st).1 = false)
    ∧ (∀ r, storeGet dec st.store service = some r → r.expiresAt = none →
        truthy r.accessToken = true → (hasValidToken dec service now st).1 = true)
    ∧ (∀ r e, storeGet dec st.store service = some r → r.expiresAt = some e →
        threshold < e - now → needsRefresh dec service now threshold st = false)
    ∧ (st.tokenCache = none → storeGet dec st.store service = none →
        (hasValidToken dec service now st).1 = false) := by
  refine ⟨?_, ?_, ?_, ?_⟩
  · intro r e hr he hlt
    by_cases ht : truthy (getAccessToken dec service st).1
    · simp only [hasValidToken, ht, if_true, getAccessToken_store_eq, hr, he]
      simp only [decide_eq_false_iff_not, not_lt]
      omega
    · simp [hasValidToken, ht]
  · intro r hr he ht
    have htok := getAccessToken_truthy dec service st r hr ht
    simp [hasValidToken, htok, getAccessToken_store_eq, hr, he]
  · intro r e hr he hgt
    simp only [needsRefresh, hr, he]
    simp only [decide_eq_false_iff_not, not_lt]
    omega
  · intro hc hr
    have hga : getAccessToken dec service st = (none, st) := by
      unfold getAccessToken loadFromStore
      simp [hc, hr]
    simp [hasValidToken, hga, truthy]

/-- Witness for C5, applying each clause at concrete states: a record
expired an hour before `now`; a non-expiring record; a record expiring
far beyond the 5-minute threshold; and an empty store. -/
theorem C5_validity_and_threshold_witness :
    (hasValidToken idDec "svc" 3600000
        ⟨⟨false, [], some [("svc", ⟨some "tok", none, "Bearer", "", 0, some 0⟩)]⟩, none⟩).1 = false
    ∧ (hasValidToken idDec "svc" 3600000
        ⟨⟨false, [], some [("svc", ⟨some "tok", none, "Bearer", "", 0, none⟩)]⟩, none⟩).1 = true
    ∧ needsRefresh idDec "svc" 3600000 300000
        ⟨⟨false, [], some [("svc", ⟨some "tok", none, "Bearer", "", 0, some 7200000⟩)]⟩, none⟩ = false
    ∧ (hasValidToken idDec "svc" 3600000 ⟨⟨false, [], none⟩, none⟩).1 = false :=
  ⟨(C5_validity_and_threshold idDec "svc" 3600000 300000
        ⟨⟨false, [], some [("svc", ⟨some "tok", none, "Bearer", "", 0, some 0⟩)]⟩, none⟩).1
      _ 0 rfl rfl (by omega),
   (C5_validity_and_threshold idDec "svc" 3600000 300000
        ⟨⟨false, [], some [("svc", ⟨some "tok", none, "Bearer", "", 0, none⟩)]⟩, none⟩).2.1
      _ rfl rfl (by decide),
   (C5_validity_and_threshold idDec "svc" 3600000 300000
        ⟨⟨false, [], some [("svc", ⟨some "tok", none, "Bearer", "", 0, some 7200000⟩)]⟩, none⟩).2.2.1
      _ 7200000 rfl rfl (by omega),
   (C5_validity_and_threshold idDec "svc" 3600000 300000
        ⟨⟨false, [], none⟩, none⟩).2.2.2 rfl rfl⟩

/-- **C6** — round trip: `set(service, r)` then `get(service)` returns
`r`, in keychain mode and in file mode alike, for every prior store
state (in particular whatever the existing file held, even a corrupt
one), given that decryption inverts encryption.  The `StoreState` is
exactly the persistent state (file/keychain contents), so `get` from a
fresh `CredentialStore` instance pointed at the same file evaluates this
very expression — persistence across process restarts is the same
statement. -/
theorem C6_set_get_roundtrip {Blob : Type} (enc : CredMap → Blob)
    (dec : Blob → Option CredMap) (hdec : ∀ m, dec (enc m) = some m)
    (st : StoreState Blob) (service : String) (r : TokenRecord) :
    storeGet dec (storeSet enc dec st service r) service = some r := by
  cases hk : st.keytarAvailable
  · simp only [storeGet, storeSet, hk, Bool.false_eq_true, if_false]
    unfold getFromFile setInFile
    cases hf : st.file with
    | none => simp [hdec, mapGet_mapSet_self]
    | some b => cases hd : dec b <;> simp [hdec, mapGet_mapSet_self]
  · simp [storeGet, storeSet, hk, mapGet_mapSet_self]

/-- Witness for C6: a concrete record round-trips through a file-mode
store whose file does not exist yet, with the identity cipher. -/
theorem C6_set_get_roundtrip_witness :
    storeGet idDec
      (storeSet idEnc idDec ⟨false, [], none⟩ "git-super-acme"
        ⟨some "tok1", some "ref1", "Bearer", "repo", 0, some 3600000⟩)
      "git-super-acme"
      = some ⟨some "tok1", some "ref1", "Bearer", "repo", 0, some 3600000⟩ :=
  C6_set_get_roundtrip idEnc idDec idDec_idEnc ⟨false, [], none⟩ "git-super-acme"
    ⟨some "tok1", some "ref1", "Bearer", "repo", 0, some 3600000⟩

/-- **C7** — `revokeToken(revokeEndpoint)` deletes the provider's
`CredentialStore` entry and clears the in-memory cache for *every*
outcome `f` of the best-effort revocation request (the request sits in a
`try`/`catch` whose handler only logs) and whether or not an endpoint
was supplied; the embedding is a total function, so no failure
propagates. -/
theorem C7_revoke_clears_local_state {Blob : Type} (enc : CredMap → Blob)
    (dec : Blob → Option CredMap) (hdec : ∀ m, dec (enc m) = some m)
    (service : String) (endpoint : Option String) (f : RevokeFetch)
    (st : TMState Blob) :
    storeGet dec (revokeToken enc dec service endpoint f st).store service = none
    ∧ (revokeToken enc dec service endpoint f st).tokenCache = none := by
  refine ⟨?_, rfl⟩
  exact storeGet_storeDelete enc dec hdec _ service

/-- Witness for C7: revocation whose HTTP call throws still deletes the
stored record and clears the cache. -/
theorem C7_revoke_clears_local_state_witness :
    storeGet idDec
      (revokeToken idEnc idDec "git-super-acme" (some "https://p/revoke")
        (.netError "ENETUNREACH")
        ⟨⟨false, [], some [("git-super-acme", ⟨some "tok1", some "ref1", "Bearer", "repo", 0, none⟩)]⟩,
          some ⟨some "tok1", some "ref1", "Bearer", "repo", 0, none⟩⟩).store
      "git-super-acme" = none
    ∧ (revokeToken idEnc idDec "git-super-acme" (some "https://p/revoke")
        (.netError "ENETUNREACH")
        ⟨⟨false, [], some [("git-super-acme", ⟨some "tok1", some "ref1", "Bearer", "repo", 0, none⟩)]⟩,
          some ⟨some "tok1", some "ref1", "Bearer", "repo", 0, none⟩⟩).tokenCache = none :=
  C7_revoke_clears_local_state idEnc idDec idDec_idEnc "git-super-acme"
    (some "https://p/revoke") (.netError "ENETUNREACH") _

/-- **C8** — `OAuthAuthStrategy.getAuthHeaders()`: when `hasValidToken`
is false it first runs a refresh; a failed refresh raises the
re-authentication error; only once validity is confirmed (directly, or
by a successful refresh) does it build `{Authorization: "Bearer
<token>"}` from the access token; and when no token string is available
despite validity it raises the no-token error instead of returning a
credential-less header. -/
theorem C8_oauth_auth_headers {Blob : Type} (enc : CredMap → Blob)
    (dec : Blob → Option CredMap) (service : String) (scopes : List String)
    (now : Int) (f : RefreshFetch) (st : TMState Blob) :
    (∀ st₁ st₂, hasValidToken dec service now st = (false, st₁) →
        doRefresh enc dec service scopes now f st₁ = (false, st₂) →
        getAuthHeaders enc dec service scopes now f st = (.err expiredRefreshMsg, st₂))
    ∧ (∀ st₁ st₂ t st₃, hasValidToken dec service now st = (false, st₁) →
        doRefresh enc dec service scopes now f st₁ = (true, st₂) →
        getAccessToken dec service st₂ = (some t, st₃) → t ≠ "" →
        getAuthHeaders enc dec service scopes now f st
          = (.ok [("Authorization", "Bearer " ++ t)], st₃))
    ∧ (∀ st₁ t st₂, hasValidToken dec service now st = (true, st₁) →
        getAccessToken dec service st₁ = (some t, st₂) → t ≠ "" →
        getAuthHeaders enc dec service scopes now f st
          = (.ok [("Authorization", "Bearer " ++ t)], st₂))
    ∧ (∀ st₁ st₂, hasValidToken dec service now st = (true, st₁) →
        getAccessToken dec service st₁ = (none, st₂) →
        getAuthHeaders enc dec service scopes now f st = (.err noTokenMsg, st₂)) := by
  refine ⟨?_, ?_, ?_, ?_⟩
  · intro st₁ st₂ h₁ h₂
    simp [getAuthHeaders, h₁, h₂]
  · intro st₁ st₂ t st₃ h₁ h₂ h₃ ht
    simp [getAuthHeaders, h₁, h₂, finishHeaders, h₃, truthy, jsOr, ht]
  · intro st₁ t st₂ h₁ h₂ ht
    simp [getAuthHeaders, h₁, finishHeaders, h₂, truthy, jsOr, ht]
  · intro st₁ st₂ h₁ h₂
    simp [getAuthHeaders, h₁, finishHeaders, h₂, truthy]

/-- Witness for C8: a cached non-expiring token yields the Bearer
header unchanged. -/
theorem C8_oauth_auth_headers_witness :
    getAuthHeaders idEnc idDec "svc" [] 0 (.netError "unused")
        ⟨⟨false, [], none⟩, some ⟨some "tok1", none, "Bearer", "", 0, none⟩⟩
      = (.ok [("Authorization", "Bearer tok1")],
          ⟨⟨false, [], none⟩, some ⟨some "tok1", none, "Bearer", "", 0, none⟩⟩) :=
  (C8_oauth_auth_headers idEnc idDec "svc" [] 0 (.netError "unused")
      ⟨⟨false, [], none⟩, some ⟨some "tok1", none, "Bearer", "", 0, none⟩⟩).2.2.1
    _ "tok1" _ rfl rfl (by decide)

/-- **C9** — frame property of `_setInFile`: when the existing file
decrypts, every service other than the one written keeps its stored
record; when the existing file is present but fails to decrypt or
parse, the write produces a file holding the single-entry map
`[(s, r)]`, so every other service's record is discarded. -/
theorem C9_setInFile_frame {Blob : Type} (enc : CredMap → Blob)
    (dec : Blob → Option CredMap) (hdec : ∀ m, dec (enc m) = some m)
    (b : Blob) (s : String) (r : TokenRecord) :
    (∀ m s', dec b = some m → s' ≠ s →
        getFromFile dec (setInFile enc dec (some b) s r) s'
          = getFromFile dec (some b) s')
    ∧ (dec b = none →
        setInFile enc dec (some b) s r = some (enc [(s, r)])
        ∧ (∀ s', s' ≠ s →
            getFromFile dec (setInFile enc dec (some b) s r) s' = none)
        ∧ getFromFile dec (setInFile enc dec (some b) s r) s = some r) := by
  refine ⟨?_, ?_⟩
  · intro m s' hm hne
    unfold setInFile getFromFile
    simp [hm, hdec, mapGet_mapSet_ne m s s' r hne]
  · intro hm
    refine ⟨?_, ?_, ?_⟩
    · unfold setInFile
      simp [hm, mapSet]
    · intro s' hne
      unfold setInFile getFromFile
      simp [hm, hdec, mapSet, mapGet, Ne.symm hne]
    · unfold setInFile getFromFile
      simp [hm, hdec, mapSet, mapGet]

/-- Witness for C9, with blobs in `Option CredMap` so that `none` is a
corrupt file: writing `"a"` over a healthy two-entry file leaves `"b"`
intact, while writing `"a"` over a corrupt file discards the old
entries, leaving only `"a"`. -/
theorem C9_setInFile_frame_witness :
    getFromFile optDec
        (setInFile optEnc optDec
          (some (some [("a", ⟨some "ta", none, "Bearer", "", 0, none⟩),
                       ("b", ⟨some "tb", none, "Bearer", "", 0, none⟩)])) "a"
          ⟨some "ta2", none, "Bearer", "", 1, none⟩) "b"
      = getFromFile optDec
          (some (some [("a", ⟨some "ta", none, "Bearer", "", 0, none⟩),
                       ("b", ⟨some "tb", none, "Bearer", "", 0, none⟩)])) "b"
    ∧ (∀ s', s' ≠ "a" →
        getFromFile optDec
          (setInFile optEnc optDec (some (none : Option CredMap)) "a"
            ⟨some "ta2", none, "Bearer", "", 1, none⟩) s' = none)
    ∧ getFromFile optDec
        (setInFile optEnc optDec (some (none : Option CredMap)) "a"
          ⟨some "ta2", none, "Bearer", "", 1, none⟩) "a"
      = some ⟨some "ta2", none, "Bearer", "", 1, none⟩ :=
  ⟨(C9_setInFile_frame optEnc optDec optDec_optEnc
      (some [("a", ⟨some "ta", none, "Bearer", "", 0, none⟩),
             ("b", ⟨some "tb", none, "Bearer", "", 0, none⟩)]) "a"
      ⟨some "ta2", none, "Bearer", "", 1, none⟩).1 _ "b" rfl (by decide),
   ((C9_setInFile_frame optEnc optDec optDec_optEnc (none : Option CredMap) "a"
      ⟨some "ta2", none, "Bearer", "", 1, none⟩).2 rfl).2.1,
   ((C9_setInFile_frame optEnc optDec optDec_optEnc (none : Option CredMap) "a"
      ⟨some "ta2", none, "Bearer", "", 1, none⟩).2 rfl).2.2⟩

/-- **C10, counterexample** — the claim says `getStorageMethod()`
returns `"keychain"` when the OS keychain backend is active, but the
source returns the string `"keytar"` (matching its own doc comment
`@returns {string} 'keytar' or 'file'`). -/
theorem C10_storage_method_counterexample :
    getStorageMethod (⟨true, [], none⟩ : StoreState CredMap) = "keytar"
    ∧ getStorageMethod (⟨true, [], none⟩ : StoreState CredMap) ≠ "keychain" :=
  ⟨rfl, by decide⟩

/-- **C10, amended** — `getStorageMethod()` returns `"keytar"` when the
OS keychain backend is active and `"file"` otherwise. -/
theorem C10_storage_method_amended {Blob : Type} (st : StoreState Blob) :
    (st.keytarAvailable = true → getStorageMethod st = "keytar")
    ∧ (st.keytarAvailable = false → getStorageMethod st = "file") := by
  refine ⟨?_, ?_⟩ <;> intro h <;> simp [getStorageMethod, h]

/-- Witness for C10 (amended) at both backend states. -/
theorem C10_storage_method_amended_witness :
    getStorageMethod (⟨true, [], none⟩ : StoreState CredMap) = "keytar"
    ∧ getStorageMethod (⟨false, [], none⟩ : StoreState CredMap) = "file" :=
  ⟨(C10_storage_method_amended ⟨true, [], none⟩).1 rfl,
   (C10_storage_method_amended ⟨false, [], none⟩).2 rfl⟩

end GitSuper
